import Mathlib

/-!
Verification of the operator-application layer of the
graphblas_sparse_linear_algebra crate.

The crate is a typed wrapper over an external GraphBLAS-style compute
engine.  The applier objects of the wrapper (matrix multiplication,
element-wise addition and multiplication, unary map, column extraction)
are translated here from the Rust sources under src/operators.  The
engine entry points the wrapper forwards to (GrB_mxm,
GrB_Vector_eWiseAdd_BinaryOp, GrB_Matrix_eWiseMult_BinaryOp,
GrB_Vector_apply, GrB_Col_extract), as well as the collection, options,
accumulator and error modules, are external to the provided sources and
are modelled from the specification text.
-/

namespace GraphBLAS

/-- Modelled from the spec: the error taxonomy of section 7
(InitializationError, DomainMismatch, DimensionMismatch,
IndexOutOfBounds, InvalidOrUninitializedHandle, OutOfMemory).  The
error-translation module (error.rs) is not among the provided sources;
every engine failure surfaces as one of these typed values. -/
inductive SparseLinearAlgebraError where
  | initializationError
  | domainMismatch
  | dimensionMismatch
  | indexOutOfBounds
  | invalidOrUninitializedHandle
  | outOfMemory
deriving DecidableEq, Repr

/-- Modelled from the spec: a sparse vector (section 3) consumed only
through its accessor surface, namely its length and the optional stored
value at each coordinate.  The storage module is not among the provided
sources. -/
structure SparseVector (α : Type) where
  length : Nat
  element_value : Nat → Option α

/-- Modelled from the spec: a sparse matrix (section 3) consumed only
through its accessor surface, namely its dimensions and the optional
stored value at each coordinate pair. -/
structure SparseMatrix (α : Type) where
  row_height : Nat
  column_width : Nat
  element_value : Nat → Nat → Option α

/-- A freshly created sparse vector holds no stored elements. -/
def SparseVector.new (α : Type) (length : Nat) : SparseVector α :=
  ⟨length, fun _ => none⟩

/-- A freshly created sparse matrix holds no stored elements. -/
def SparseMatrix.new (α : Type) (row_height column_width : Nat) : SparseMatrix α :=
  ⟨row_height, column_width, fun _ _ => none⟩

/-- Transposed view of a sparse matrix, used by the transpose flags of
the operator options. -/
def SparseMatrix.transpose (a : SparseMatrix α) : SparseMatrix α :=
  ⟨a.column_width, a.row_height, fun i j => a.element_value j i⟩

/-- Modelled from the spec: OperatorOptions (sections 3 and 4.3) with
its five flags; the options module (options.rs) is not among the
provided sources.  The default is no transpose, merge (not replace)
into the existing output, and mask values used as given. -/
structure OperatorOptions where
  transpose_first : Bool
  transpose_second : Bool
  replace_output : Bool
  structural_mask : Bool
  complement_mask : Bool
deriving DecidableEq, Repr

/-- The default operator options of OperatorOptions::new_default. -/
def OperatorOptions.new_default : OperatorOptions :=
  ⟨false, false, false, false, false⟩

/-- Modelled from the spec: an accumulator (sections 3 and 4.2); the
binary-operator module (binary_operator.rs) is not among the provided
sources.  The Assignment variant discards the prior output value; any
other variant combines the newly computed value with the pre-existing
output value through its binary function. -/
inductive Accumulator (α : Type) where
  | assignment
  | combine (f : α → α → α)

/-- Modelled from the spec: a semiring handle (section 3), a pair of
add and multiply operations; the semiring module is not among the
provided sources. -/
structure SemiringOperator (α : Type) where
  add : α → α → α
  multiply : α → α → α

/-- The plus-times semiring over the integers, as built by
PlusTimes::new. -/
def PlusTimes.new : SemiringOperator Int :=
  ⟨fun x y => x + y, fun x y => x * y⟩

/-- Modelled from the spec: the mask writable predicate of section 4.4
at one output coordinate.  The outer Option is the mask argument handed
to the engine: none is the null (no-restriction) mask pointer, some e
is the stored mask entry at the coordinate of an explicit mask
collection.  A coordinate of an explicit mask is writable iff it is
present in the mask collection and, unless structural interpretation is
requested, its value casts to true; the complement flag inverts the
predicate.  Value casting of mask entries to Bool is absorbed by using
Bool-valued mask collections. -/
def mask_selects (opts : OperatorOptions) (mask_entry : Option (Option Bool)) : Bool :=
  let base : Bool :=
    match mask_entry with
    | none => true
    | some none => false
    | some (some b) => if opts.structural_mask then true else b
  if opts.complement_mask then !base else base

/-- Modelled from the spec: the final stored content of one output
coordinate after a masked, accumulated engine operation (sections 4.2,
4.3, 4.4 and 7).  At a writable coordinate an Assignment accumulator
stores exactly the computed content (discarding the prior value, also
when nothing was computed), while a combining accumulator stores
combine(existing value, new value) and keeps the prior value when
nothing was computed.  At a non-writable coordinate the prior content
is kept under merge semantics and deleted under replace semantics. -/
def written_entry (accum : Accumulator α) (replace : Bool) (selected : Bool)
    (prior computed : Option α) : Option α :=
  if selected then
    match accum with
    | .assignment => computed
    | .combine f =>
      match computed with
      | some v =>
        match prior with
        | some p => some (f p v)
        | none => some v
      | none => prior
  else
    if replace then none else prior

/-- Dimension compatibility of an optional explicit vector mask with
the output vector (spec section 3: mask dimensions must equal output
dimensions or the call fails). -/
def vector_mask_dims_ok (mask : Option (SparseVector Bool)) (prior : SparseVector α) : Bool :=
  match mask with
  | none => true
  | some m => decide (m.length = prior.length)

/-- Dimension compatibility of an optional explicit matrix mask with
the output matrix. -/
def matrix_mask_dims_ok (mask : Option (SparseMatrix Bool)) (prior : SparseMatrix α) : Bool :=
  match mask with
  | none => true
  | some m => decide (m.row_height = prior.row_height) &&
      decide (m.column_width = prior.column_width)

/-- The generalized semiring product map: entry (i,j) is the add over
k of multiply(A(i,k), B(k,j)) restricted to index pairs where both
operands have a stored entry; nothing is computed at (i,j) when no
such pair exists. -/
def mxm_computed (semiring : SemiringOperator α) (a b : SparseMatrix α)
    (i j : Nat) : Option α :=
  match (List.range a.column_width).filterMap (fun k =>
    match a.element_value i k, b.element_value k j with
    | some x, some y => some (semiring.multiply x y)
    | _, _ => none) with
  | [] => none
  | t :: ts => some (ts.foldl semiring.add t)

/-- Modelled from the spec: the GrB_mxm engine entry point (section
4.5, matrix multiplication).  The generalized product over a semiring
is written through mask and accumulator; the optional transpose flags
apply to either operand before multiplication, and incompatible
dimensions fail with DimensionMismatch. -/
def GrB_mxm (accum : Accumulator α) (semiring : SemiringOperator α)
    (opts : OperatorOptions) (mask : Option (SparseMatrix Bool))
    (a b prior : SparseMatrix α) :
    Except SparseLinearAlgebraError (SparseMatrix α) :=
  let a := if opts.transpose_first then a.transpose else a
  let b := if opts.transpose_second then b.transpose else b
  if decide (a.column_width = b.row_height) &&
      decide (prior.row_height = a.row_height) &&
      decide (prior.column_width = b.column_width) &&
      matrix_mask_dims_ok mask prior then
    .ok ⟨prior.row_height, prior.column_width, fun i j =>
      written_entry accum opts.replace_output
        (mask_selects opts (mask.map fun m => m.element_value i j))
        (prior.element_value i j) (mxm_computed semiring a b i j)⟩
  else
    .error .dimensionMismatch

/-- The element-wise addition map: the computed coordinate set is the
union of the stored coordinates of the two operands; a coordinate
present in only one operand forwards that value unchanged, a
coordinate present in both combines them through the algebraic add. -/
def eWiseAdd_computed (f : α → α → α) (u v : SparseVector α) (c : Nat) : Option α :=
  match u.element_value c, v.element_value c with
  | some x, some y => some (f x y)
  | some x, none => some x
  | none, some y => some y
  | none, none => none

/-- Modelled from the spec: the GrB_Vector_eWiseAdd_BinaryOp engine
entry point (section 4.5, element-wise addition).  The union-combine
map over the operands is written through mask and accumulator;
incompatible dimensions fail with DimensionMismatch. -/
def GrB_Vector_eWiseAdd_BinaryOp (accum : Accumulator α) (f : α → α → α)
    (opts : OperatorOptions) (mask : Option (SparseVector Bool))
    (u v prior : SparseVector α) :
    Except SparseLinearAlgebraError (SparseVector α) :=
  if decide (u.length = v.length) && decide (prior.length = u.length) &&
      vector_mask_dims_ok mask prior then
    .ok ⟨prior.length, fun c =>
      written_entry accum opts.replace_output
        (mask_selects opts (mask.map fun m => m.element_value c))
        (prior.element_value c) (eWiseAdd_computed f u v c)⟩
  else
    .error .dimensionMismatch

/-- The element-wise multiplication map: the computed coordinate set
is the intersection of the stored coordinates of the two operands;
coordinates present in only one operand are dropped entirely. -/
def eWiseMult_computed (f : α → α → α) (a b : SparseMatrix α) (i j : Nat) : Option α :=
  match a.element_value i j, b.element_value i j with
  | some x, some y => some (f x y)
  | _, _ => none

/-- Modelled from the spec: the GrB_Matrix_eWiseMult_BinaryOp engine
entry point (section 4.5, element-wise multiplication).  The
intersection-combine map over the operands is written through mask and
accumulator; incompatible dimensions fail with DimensionMismatch. -/
def GrB_Matrix_eWiseMult_BinaryOp (accum : Accumulator α) (f : α → α → α)
    (opts : OperatorOptions) (mask : Option (SparseMatrix Bool))
    (a b prior : SparseMatrix α) :
    Except SparseLinearAlgebraError (SparseMatrix α) :=
  let a := if opts.transpose_first then a.transpose else a
  let b := if opts.transpose_second then b.transpose else b
  if decide (a.row_height = b.row_height) &&
      decide (a.column_width = b.column_width) &&
      decide (prior.row_height = a.row_height) &&
      decide (prior.column_width = a.column_width) &&
      matrix_mask_dims_ok mask prior then
    .ok ⟨prior.row_height, prior.column_width, fun i j =>
      written_entry accum opts.replace_output
        (mask_selects opts (mask.map fun m => m.element_value i j))
        (prior.element_value i j) (eWiseMult_computed f a b i j)⟩
  else
    .error .dimensionMismatch

/-- Modelled from the spec: the GrB_Vector_apply engine entry point
(section 4.5, unary map).  The computed coordinate set equals the
stored coordinate set of the input, with each value replaced by the
unary operator applied to it; the result is written through mask and
accumulator. -/
def GrB_Vector_apply (accum : Accumulator α) (op : α → α)
    (opts : OperatorOptions) (mask : Option (SparseVector Bool))
    (u prior : SparseVector α) :
    Except SparseLinearAlgebraError (SparseVector α) :=
  if decide (prior.length = u.length) && vector_mask_dims_ok mask prior then
    .ok ⟨prior.length, fun c =>
      written_entry accum opts.replace_output
        (mask_selects opts (mask.map fun m => m.element_value c))
        (prior.element_value c)
        ((u.element_value c).map op)⟩
  else
    .error .dimensionMismatch

/-- The row-index selector of the extraction operators: either every
row, or an explicit, possibly repeating ordered list of row indices.
Translated from src/index (ElementIndexSelector), whose declaration is
consumed by extract_matrix_column.rs. -/
inductive ElementIndexSelector where
  | All
  | Index (indices : List Nat)

/-- The column extraction map: the i-th computed entry is the stored
content of the source matrix at (selector i, target column). -/
def col_extract_computed (source : SparseMatrix α) (indices : List Nat)
    (column : Nat) (c : Nat) : Option α :=
  if c < indices.length then
    source.element_value (indices.getD c 0) column
  else none

/-- Modelled from the spec: the GrB_Col_extract engine entry point
(section 4.5, column extraction).  The call fails with IndexOutOfBounds
if any selected row index equals or exceeds the row count of the source
matrix; otherwise the i-th computed entry is the stored content of the
source at (selector i, target column), written through mask and
accumulator into an output vector whose length is the number of
selected indices. -/
def GrB_Col_extract (accum : Accumulator α) (opts : OperatorOptions)
    (mask : Option (SparseVector Bool)) (source : SparseMatrix α)
    (selector : ElementIndexSelector) (number_of_indices : Nat)
    (column : Nat) (prior : SparseVector α) :
    Except SparseLinearAlgebraError (SparseVector α) :=
  let indices : List Nat :=
    match selector with
    | .All => List.range source.row_height
    | .Index l => l
  if indices.any fun i => decide (source.row_height ≤ i) then
    .error .indexOutOfBounds
  else
    .ok ⟨number_of_indices, fun c =>
      written_entry accum opts.replace_output
        (mask_selects opts (mask.map fun m => m.element_value c))
        (prior.element_value c)
        (col_extract_computed source indices column c)⟩

/-- The matrix multiplication applier of
src/operators/multiplication/matrix_multiplication.rs: it stores the
compiled accumulator, semiring and options handles, set once at
construction. -/
structure MatrixMultiplicationOperator (α : Type) where
  accumulator : Accumulator α
  semiring : SemiringOperator α
  options : OperatorOptions

/-- MatrixMultiplicationOperator::new packs the three compiled handles
into the applier. -/
def MatrixMultiplicationOperator.new (semiring : SemiringOperator α)
    (options : OperatorOptions) (accumulator : Accumulator α) :
    MatrixMultiplicationOperator α :=
  ⟨accumulator, semiring, options⟩

/-- MultiplyMatrices::apply forwards to GrB_mxm with the null mask
pointer and the stored handles. -/
def MatrixMultiplicationOperator.apply (self : MatrixMultiplicationOperator α)
    (multiplier multiplicant : SparseMatrix α) (product : SparseMatrix α) :
    Except SparseLinearAlgebraError (SparseMatrix α) :=
  GrB_mxm self.accumulator self.semiring self.options none
    multiplier multiplicant product

/-- MultiplyMatrices::apply_with_mask forwards to GrB_mxm with the
explicit mask handle and the stored handles. -/
def MatrixMultiplicationOperator.apply_with_mask
    (self : MatrixMultiplicationOperator α) (mask : SparseMatrix Bool)
    (multiplier multiplicant : SparseMatrix α) (product : SparseMatrix α) :
    Except SparseLinearAlgebraError (SparseMatrix α) :=
  GrB_mxm self.accumulator self.semiring self.options (some mask)
    multiplier multiplicant product

/-- The 2 by 2 multiplier of Example A, stored entries
(0,0,1), (1,0,2), (0,1,3), (1,1,4). -/
def exampleA_multiplier : SparseMatrix Int :=
  ⟨2, 2, fun i j =>
    match i, j with
    | 0, 0 => some 1
    | 1, 0 => some 2
    | 0, 1 => some 3
    | 1, 1 => some 4
    | _, _ => none⟩

/-- The 2 by 2 multiplicant of Example A, stored entries
(0,0,5), (1,0,6), (0,1,7), (1,1,8). -/
def exampleA_multiplicant : SparseMatrix Int :=
  ⟨2, 2, fun i j =>
    match i, j with
    | 0, 0 => some 5
    | 1, 0 => some 6
    | 0, 1 => some 7
    | 1, 1 => some 8
    | _, _ => none⟩

/-- Claim C1: multiplying the Example A operand matrices under the
plus-times semiring with the Assignment accumulator into an empty 2
by 2 product succeeds, and the product stores exactly the entries
(0,0,23), (0,1,31), (1,0,34), (1,1,46) and nothing elsewhere. -/
theorem matrix_multiplication_plus_times_exampleA :
    ∃ w,
      (MatrixMultiplicationOperator.new PlusTimes.new
          OperatorOptions.new_default Accumulator.assignment).apply
        exampleA_multiplier exampleA_multiplicant (SparseMatrix.new Int 2 2) =
        .ok w ∧
      ∀ i j, w.element_value i j =
        (match i, j with
         | 0, 0 => some (23 : Int)
         | 0, 1 => some 31
         | 1, 0 => some 34
         | 1, 1 => some 46
         | _, _ => none) := by
  refine ⟨_, rfl, ?_⟩
  intro i j
  rcases i with _ | _ | i <;> rcases j with _ | _ | j <;> rfl

/-- The column extraction applier of
src/operators/extract/extract_matrix_column.rs: a stateless object,
taking accumulator, mask and options per call. -/
structure MatrixColumnExtractor where

/-- MatrixColumnExtractor::new. -/
def MatrixColumnExtractor.new : MatrixColumnExtractor := {}

/-- ExtractMatrixColumn::apply (translated from
src/operators/extract/extract_matrix_column.rs): it computes the
number of indices to extract from the selector, then forwards to
GrB_Col_extract.  The null (no-restriction) select-entire-vector mask
is modelled by passing none. -/
def MatrixColumnExtractor.apply (_self : MatrixColumnExtractor)
    (matrix_to_extract_from : SparseMatrix α) (column_index_to_extract : Nat)
    (indices_to_extract : ElementIndexSelector) (accumulator : Accumulator α)
    (column_vector : SparseVector α) (mask : Option (SparseVector Bool))
    (options : OperatorOptions) :
    Except SparseLinearAlgebraError (SparseVector α) :=
  let number_of_indices :=
    match indices_to_extract with
    | .Index indices => indices.length
    | .All => matrix_to_extract_from.row_height
  GrB_Col_extract accumulator options mask matrix_to_extract_from
    indices_to_extract number_of_indices column_index_to_extract column_vector

/-- The 3 by 2 source matrix of Example B: column 0 holds the values
1, 2, 3 at row indices 0, 1, 2 and column 1 holds 4, 5, 6. -/
def exampleB_matrix : SparseMatrix Int :=
  ⟨3, 2, fun i j =>
    match i, j with
    | 0, 0 => some 1
    | 1, 0 => some 2
    | 2, 0 => some 3
    | 0, 1 => some 4
    | 1, 1 => some 5
    | 2, 1 => some 6
    | _, _ => none⟩

/-- Claim C2: a successful column extraction with the Assignment
accumulator and the select-all mask yields a vector of the
selector length whose i-th entry is the source entry at
(selector i, target column); in particular Example B, extracting
column 0 of the 3 by 2 matrix with selector [0, 2], yields the
length-2 vector with values 1 and 3. -/
theorem column_extraction_selects_rows :
    (∀ (m : SparseMatrix Int) (col : Nat) (sel : List Nat)
        (prior w : SparseVector Int),
      MatrixColumnExtractor.new.apply m col (.Index sel)
          Accumulator.assignment prior none OperatorOptions.new_default =
        .ok w →
      w.length = sel.length ∧
        ∀ i, i < sel.length → w.element_value i = m.element_value (sel.getD i 0) col) ∧
    (∃ w, MatrixColumnExtractor.new.apply exampleB_matrix 0
        (.Index [0, 2]) Accumulator.assignment (SparseVector.new Int 2) none
        OperatorOptions.new_default = .ok w ∧
      w.length = 2 ∧ w.element_value 0 = some 1 ∧ w.element_value 1 = some 3) := by
  constructor
  · intro m col sel prior w h
    unfold MatrixColumnExtractor.apply GrB_Col_extract at h
    simp only at h
    split at h
    · exact absurd h (by simp)
    · rw [Except.ok.injEq] at h
      subst h
      refine ⟨rfl, ?_⟩
      intro i hi
      simp only [written_entry, mask_selects, col_extract_computed,
        OperatorOptions.new_default, Option.map_none, if_pos hi]
      rfl
  · exact ⟨_, rfl, rfl, rfl, rfl⟩

/-- Witness for C2: the universal part instantiated at Example B. -/
theorem column_extraction_selects_rows_witness :
    (((MatrixColumnExtractor.new.apply exampleB_matrix 0
        (ElementIndexSelector.Index [0, 2]) Accumulator.assignment
        (SparseVector.new Int 2) none
        OperatorOptions.new_default).toOption.getD
          (SparseVector.new Int 2)).length = 2 ∧
      ((MatrixColumnExtractor.new.apply exampleB_matrix 0
        (ElementIndexSelector.Index [0, 2]) Accumulator.assignment
        (SparseVector.new Int 2) none
        OperatorOptions.new_default).toOption.getD
          (SparseVector.new Int 2)).element_value 0 =
        exampleB_matrix.element_value 0 0) := by
  have h := column_extraction_selects_rows.1 exampleB_matrix 0 [0, 2]
    (SparseVector.new Int 2) _ rfl
  exact ⟨h.1, h.2 0 (by decide)⟩

/-- Claim C3: column extraction with an explicit selector returns an
IndexOutOfBounds error, as a typed result, whenever some selected row
index equals or exceeds the row count of the source, and never returns
that error when every selected row index is strictly below the row
count. -/
theorem column_extraction_index_out_of_bounds :
    ∀ (m : SparseMatrix Int) (col : Nat) (sel : List Nat)
      (accum : Accumulator Int) (prior : SparseVector Int)
      (mask : Option (SparseVector Bool)) (opts : OperatorOptions),
      ((∃ i ∈ sel, m.row_height ≤ i) →
        MatrixColumnExtractor.new.apply m col (.Index sel) accum prior mask opts =
          .error .indexOutOfBounds) ∧
      ((∀ i ∈ sel, i < m.row_height) →
        MatrixColumnExtractor.new.apply m col (.Index sel) accum prior mask opts ≠
          .error .indexOutOfBounds) := by
  intro m col sel accum prior mask opts
  constructor
  · intro h
    unfold MatrixColumnExtractor.apply GrB_Col_extract
    simp only
    rw [if_pos]
    simp only [List.any_eq_true, decide_eq_true_eq]
    obtain ⟨i, hmem, hge⟩ := h
    exact ⟨i, hmem, hge⟩
  · intro h
    unfold MatrixColumnExtractor.apply GrB_Col_extract
    simp only
    rw [if_neg]
    · simp
    · simp only [List.any_eq_true, decide_eq_true_eq, not_exists]
      exact fun i hconj => absurd hconj.2 (Nat.not_le.mpr (h i hconj.1))

/-- Witness for C3: a selector reaching past the 3 rows of the Example
B matrix is rejected with IndexOutOfBounds, and the in-bounds selector
[0, 2] is not. -/
theorem column_extraction_index_out_of_bounds_witness :
    (MatrixColumnExtractor.new.apply exampleB_matrix 0
        (.Index [0, 3]) Accumulator.assignment (SparseVector.new Int 2) none
        OperatorOptions.new_default = .error .indexOutOfBounds) ∧
      (MatrixColumnExtractor.new.apply exampleB_matrix 0
        (.Index [0, 2]) Accumulator.assignment (SparseVector.new Int 2) none
        OperatorOptions.new_default ≠ .error .indexOutOfBounds) := by
  constructor
  · exact (column_extraction_index_out_of_bounds exampleB_matrix 0 [0, 3]
      Accumulator.assignment (SparseVector.new Int 2) none
      OperatorOptions.new_default).1 ⟨3, by decide, by decide⟩
  · exact (column_extraction_index_out_of_bounds exampleB_matrix 0 [0, 2]
      Accumulator.assignment (SparseVector.new Int 2) none
      OperatorOptions.new_default).2 (by decide)

/-- The element-wise vector addition applier of
src/operators/element_wise_addition/element_wise_vector_addition.rs
(binary-operator variant): it stores the compiled accumulator,
element-wise operator and options handles, set once at
construction. -/
structure ElementWiseVectorAdditionBinaryOperator (α : Type) where
  accumulator : Accumulator α
  multiplication_operator : α → α → α
  options : OperatorOptions

/-- ElementWiseVectorAdditionBinaryOperator::new packs the three
compiled handles into the applier. -/
def ElementWiseVectorAdditionBinaryOperator.new (multiplication_operator : α → α → α)
    (options : OperatorOptions) (accumulator : Accumulator α) :
    ElementWiseVectorAdditionBinaryOperator α :=
  ⟨accumulator, multiplication_operator, options⟩

/-- ApplyElementWiseVectorAdditionBinaryOperator::apply forwards to
GrB_Vector_eWiseAdd_BinaryOp with the null mask pointer and the stored
handles. -/
def ElementWiseVectorAdditionBinaryOperator.apply
    (self : ElementWiseVectorAdditionBinaryOperator α)
    (multiplier multiplicant : SparseVector α) (product : SparseVector α) :
    Except SparseLinearAlgebraError (SparseVector α) :=
  GrB_Vector_eWiseAdd_BinaryOp self.accumulator self.multiplication_operator
    self.options none multiplier multiplicant product

/-- ApplyElementWiseVectorAdditionBinaryOperator::apply_with_mask
forwards to GrB_Vector_eWiseAdd_BinaryOp with the explicit mask handle
and the stored handles. -/
def ElementWiseVectorAdditionBinaryOperator.apply_with_mask
    (self : ElementWiseVectorAdditionBinaryOperator α) (mask : SparseVector Bool)
    (multiplier multiplicant : SparseVector α) (product : SparseVector α) :
    Except SparseLinearAlgebraError (SparseVector α) :=
  GrB_Vector_eWiseAdd_BinaryOp self.accumulator self.multiplication_operator
    self.options (some mask) multiplier multiplicant product

/-- The element-wise matrix multiplication applier of
src/operators/element_wise_multiplication/element_wise_matrix_multiplication.rs
(binary-operator variant). -/
structure ElementWiseMatrixMultiplicationBinaryOperator (α : Type) where
  accumulator : Accumulator α
  multiplication_operator : α → α → α
  options : OperatorOptions

/-- ElementWiseMatrixMultiplicationBinaryOperator::new packs the three
compiled handles into the applier. -/
def ElementWiseMatrixMultiplicationBinaryOperator.new
    (multiplication_operator : α → α → α) (options : OperatorOptions)
    (accumulator : Accumulator α) :
    ElementWiseMatrixMultiplicationBinaryOperator α :=
  ⟨accumulator, multiplication_operator, options⟩

/-- ApplyElementWiseMatrixMultiplicationBinaryOperator::apply forwards
to GrB_Matrix_eWiseMult_BinaryOp with the null mask pointer and the
stored handles. -/
def ElementWiseMatrixMultiplicationBinaryOperator.apply
    (self : ElementWiseMatrixMultiplicationBinaryOperator α)
    (multiplier multiplicant : SparseMatrix α) (product : SparseMatrix α) :
    Except SparseLinearAlgebraError (SparseMatrix α) :=
  GrB_Matrix_eWiseMult_BinaryOp self.accumulator self.multiplication_operator
    self.options none multiplier multiplicant product

/-- ApplyElementWiseMatrixMultiplicationBinaryOperator::apply_with_mask
forwards to GrB_Matrix_eWiseMult_BinaryOp with the explicit mask
handle and the stored handles. -/
def ElementWiseMatrixMultiplicationBinaryOperator.apply_with_mask
    (self : ElementWiseMatrixMultiplicationBinaryOperator α)
    (mask : SparseMatrix Bool)
    (multiplier multiplicant : SparseMatrix α) (product : SparseMatrix α) :
    Except SparseLinearAlgebraError (SparseMatrix α) :=
  GrB_Matrix_eWiseMult_BinaryOp self.accumulator self.multiplication_operator
    self.options (some mask) multiplier multiplicant product

/-- The unary map applier of src/operators/apply/unary_operator.rs: it
stores the compiled unary operator, accumulator and options handles,
set once at construction. -/
structure UnaryOperatorApplier (α : Type) where
  unary_operator : α → α
  accumulator : Accumulator α
  options : OperatorOptions

/-- UnaryOperatorApplier::new packs the three compiled handles into the
applier. -/
def UnaryOperatorApplier.new (unary_operator : α → α)
    (options : OperatorOptions) (accumulator : Accumulator α) :
    UnaryOperatorApplier α :=
  ⟨unary_operator, accumulator, options⟩

/-- ApplyUnaryOperator::apply_to_vector forwards to GrB_Vector_apply
with the null mask pointer and the stored handles. -/
def UnaryOperatorApplier.apply_to_vector (self : UnaryOperatorApplier α)
    (argument : SparseVector α) (product : SparseVector α) :
    Except SparseLinearAlgebraError (SparseVector α) :=
  GrB_Vector_apply self.accumulator self.unary_operator self.options none
    argument product

/-- ApplyUnaryOperator::apply_to_vector_with_mask forwards to
GrB_Vector_apply with the explicit mask handle and the stored
handles. -/
def UnaryOperatorApplier.apply_to_vector_with_mask (self : UnaryOperatorApplier α)
    (argument : SparseVector α) (product : SparseVector α)
    (mask : SparseVector Bool) :
    Except SparseLinearAlgebraError (SparseVector α) :=
  GrB_Vector_apply self.accumulator self.unary_operator self.options (some mask)
    argument product

/-- Claim C4: element-wise addition of two equal-length sparse vectors
with the Assignment accumulator into an empty output stores, at each
coordinate, the union-combine of the operands: a coordinate stored in
exactly one operand forwards that value unchanged, a coordinate stored
in both receives the algebraic add of the two stored values, and a
coordinate stored in neither stays empty. -/
theorem element_wise_vector_addition_union :
    ∀ (f : Int → Int → Int) (u v : SparseVector Int),
      u.length = v.length →
      ∃ w,
        (ElementWiseVectorAdditionBinaryOperator.new f
            OperatorOptions.new_default Accumulator.assignment).apply u v
          (SparseVector.new Int u.length) = .ok w ∧
        ∀ c, w.element_value c =
          match u.element_value c, v.element_value c with
          | some x, some y => some (f x y)
          | some x, none => some x
          | none, some y => some y
          | none, none => none := by
  intro f u v h
  unfold ElementWiseVectorAdditionBinaryOperator.apply
    GrB_Vector_eWiseAdd_BinaryOp
  simp only [ElementWiseVectorAdditionBinaryOperator.new]
  split
  next hcond =>
    refine ⟨_, rfl, ?_⟩
    intro c
    cases hu : u.element_value c <;> cases hv : v.element_value c <;>
      simp [written_entry, mask_selects, eWiseAdd_computed, SparseVector.new,
        OperatorOptions.new_default, hu, hv]
  next hcond =>
    exact absurd (by simp [vector_mask_dims_ok, SparseVector.new, h]) hcond

/-- Witness for C4: Example C, the vectors with stored values
1, 2, 3, 4 and 5, 6, 7, 8 combined under the times operator. -/
theorem element_wise_vector_addition_union_witness :
    ∃ w,
      (ElementWiseVectorAdditionBinaryOperator.new (fun x y => x * y)
          OperatorOptions.new_default Accumulator.assignment).apply
        ⟨4, fun c => if c < 4 then some ((c : Int) + 1) else none⟩
        ⟨4, fun c => if c < 4 then some ((c : Int) + 5) else none⟩
        (SparseVector.new Int 4) = .ok w ∧
      ∀ c, w.element_value c =
        match (if c < 4 then some ((c : Int) + 1) else none),
            (if c < 4 then some ((c : Int) + 5) else none) with
        | some x, some y => some (x * y)
        | some x, none => some x
        | none, some y => some y
        | none, none => none :=
  element_wise_vector_addition_union (fun x y => x * y)
    ⟨4, fun c => if c < 4 then some ((c : Int) + 1) else none⟩
    ⟨4, fun c => if c < 4 then some ((c : Int) + 5) else none⟩ rfl

/-- Claim C5: element-wise multiplication of two equally-sized sparse
matrices with the Assignment accumulator into an empty output stores
exactly the intersection of the operand coordinate sets, combining the
two stored values; coordinates stored in only one operand are dropped,
and two operands with no stored elements produce an output with no
stored elements. -/
theorem element_wise_matrix_multiplication_intersection :
    ∀ (f : Int → Int → Int) (a b : SparseMatrix Int),
      a.row_height = b.row_height → a.column_width = b.column_width →
      ∃ w,
        (ElementWiseMatrixMultiplicationBinaryOperator.new f
            OperatorOptions.new_default Accumulator.assignment).apply a b
          (SparseMatrix.new Int a.row_height a.column_width) = .ok w ∧
        (∀ i j, w.element_value i j =
          match a.element_value i j, b.element_value i j with
          | some x, some y => some (f x y)
          | _, _ => none) ∧
        ((∀ i j, a.element_value i j = none) →
          (∀ i j, b.element_value i j = none) →
          ∀ i j, w.element_value i j = none) := by
  intro f a b h1 h2
  unfold ElementWiseMatrixMultiplicationBinaryOperator.apply
    GrB_Matrix_eWiseMult_BinaryOp
  simp only [ElementWiseMatrixMultiplicationBinaryOperator.new,
    OperatorOptions.new_default, Bool.false_eq_true, if_false]
  split
  next hcond =>
    refine ⟨_, rfl, ?_, ?_⟩
    · intro i j
      cases ha : a.element_value i j <;> cases hb : b.element_value i j <;>
        simp [written_entry, mask_selects, eWiseMult_computed, SparseMatrix.new,
          ha, hb]
    · intro ha hb i j
      simp [written_entry, mask_selects, eWiseMult_computed, SparseMatrix.new,
        ha i j, hb i j]
  next hcond =>
    exact absurd (by simp [matrix_mask_dims_ok, SparseMatrix.new, h1, h2]) hcond

/-- Witness for C5: two empty 2 by 2 operands produce an empty
output. -/
theorem element_wise_matrix_multiplication_intersection_witness :
    ∃ w,
      (ElementWiseMatrixMultiplicationBinaryOperator.new (fun x y => x * y)
          OperatorOptions.new_default Accumulator.assignment).apply
        (SparseMatrix.new Int 2 2) (SparseMatrix.new Int 2 2)
        (SparseMatrix.new Int (SparseMatrix.new Int 2 2).row_height
          (SparseMatrix.new Int 2 2).column_width) = .ok w ∧
      (∀ i j, w.element_value i j =
        match (SparseMatrix.new Int 2 2).element_value i j,
            (SparseMatrix.new Int 2 2).element_value i j with
        | some x, some y => some (x * y)
        | _, _ => none) ∧
      ((∀ i j, (SparseMatrix.new Int 2 2).element_value i j = none) →
        (∀ i j, (SparseMatrix.new Int 2 2).element_value i j = none) →
        ∀ i j, w.element_value i j = none) :=
  element_wise_matrix_multiplication_intersection (fun x y => x * y)
    (SparseMatrix.new Int 2 2) (SparseMatrix.new Int 2 2) rfl rfl

/-- Claim C8: a successful unmasked unary map with the Assignment
accumulator replaces each stored value by the unary operator applied
to it, keeping the stored-coordinate set of the input; with the
identity operator the output reproduces the input stored values
exactly, and with the one operator every stored coordinate receives
the value 1. -/
theorem unary_operator_apply_maps_stored_values :
    (∀ (op : Int → Int) (u prior w : SparseVector Int),
      (UnaryOperatorApplier.new op OperatorOptions.new_default
          Accumulator.assignment).apply_to_vector u prior = .ok w →
      ∀ c, w.element_value c = (u.element_value c).map op) ∧
    (∀ (u prior w : SparseVector Int),
      (UnaryOperatorApplier.new (fun x => x) OperatorOptions.new_default
          Accumulator.assignment).apply_to_vector u prior = .ok w →
      ∀ c, w.element_value c = u.element_value c) ∧
    (∀ (u prior w : SparseVector Int),
      (UnaryOperatorApplier.new (fun _ => (1 : Int)) OperatorOptions.new_default
          Accumulator.assignment).apply_to_vector u prior = .ok w →
      ∀ c, (u.element_value c).isSome → w.element_value c = some 1) := by
  have hmain : ∀ (op : Int → Int) (u prior w : SparseVector Int),
      (UnaryOperatorApplier.new op OperatorOptions.new_default
          Accumulator.assignment).apply_to_vector u prior = .ok w →
      ∀ c, w.element_value c = (u.element_value c).map op := by
    intro op u prior w h c
    unfold UnaryOperatorApplier.apply_to_vector GrB_Vector_apply at h
    simp only [UnaryOperatorApplier.new] at h
    split at h
    · rw [Except.ok.injEq] at h
      subst h
      simp [written_entry, mask_selects, OperatorOptions.new_default]
    · exact absurd h (by simp)
  refine ⟨hmain, ?_, ?_⟩
  · intro u prior w h c
    rw [hmain (fun x => x) u prior w h c]
    cases u.element_value c <;> rfl
  · intro u prior w h c hc
    rw [hmain (fun _ => (1 : Int)) u prior w h c]
    cases hu : u.element_value c
    · rw [hu] at hc; exact absurd hc (by simp)
    · rfl

/-- Witness for C8: a unary map over a concrete stored vector produces
the operator image of the stored value at coordinate 1. -/
theorem unary_operator_apply_maps_stored_values_witness :
    (((UnaryOperatorApplier.new (fun x => x + 1) OperatorOptions.new_default
        Accumulator.assignment).apply_to_vector
      ⟨2, fun c => if c = 1 then some (41 : Int) else none⟩
      (SparseVector.new Int 2)).toOption.getD
        (SparseVector.new Int 2)).element_value 1 =
      ((⟨2, fun c => if c = 1 then some (41 : Int) else none⟩ :
        SparseVector Int).element_value 1).map (fun x => x + 1) :=
  unary_operator_apply_maps_stored_values.1 (fun x => x + 1)
    ⟨2, fun c => if c = 1 then some (41 : Int) else none⟩
    (SparseVector.new Int 2) _ rfl 1

/-- The Example C multiplier vector, stored values 1, 2, 3, 4 at
coordinates 0 to 3. -/
def exampleC_multiplier : SparseVector Int :=
  ⟨4, fun c => if c < 4 then some ((c : Int) + 1) else none⟩

/-- The Example C multiplicant vector, stored values 5, 6, 7, 8 at
coordinates 0 to 3. -/
def exampleC_multiplicant : SparseVector Int :=
  ⟨4, fun c => if c < 4 then some ((c : Int) + 5) else none⟩

/-- Claim C6: writing an element-wise result once with the Assignment
accumulator and then applying the same operation to the same inputs
once more with the additive Plus accumulator doubles every stored
coordinate: the second call stores combine(existing, new) with
existing equal to new.  Stated for the element-wise vector addition
applier and for the element-wise matrix multiplication applier. -/
theorem element_wise_double_application_with_plus_accumulator :
    (∀ (f : Int → Int → Int) (u v prior w1 w2 : SparseVector Int),
      (ElementWiseVectorAdditionBinaryOperator.new f
          OperatorOptions.new_default Accumulator.assignment).apply u v prior =
        .ok w1 →
      (ElementWiseVectorAdditionBinaryOperator.new f
          OperatorOptions.new_default
          (Accumulator.combine fun x y => x + y)).apply u v w1 = .ok w2 →
      ∀ c val, w1.element_value c = some val →
        w2.element_value c = some (2 * val)) ∧
    (∀ (f : Int → Int → Int) (a b prior w1 w2 : SparseMatrix Int),
      (ElementWiseMatrixMultiplicationBinaryOperator.new f
          OperatorOptions.new_default Accumulator.assignment).apply a b prior =
        .ok w1 →
      (ElementWiseMatrixMultiplicationBinaryOperator.new f
          OperatorOptions.new_default
          (Accumulator.combine fun x y => x + y)).apply a b w1 = .ok w2 →
      ∀ i j val, w1.element_value i j = some val →
        w2.element_value i j = some (2 * val)) := by
  constructor
  · intro f u v prior w1 w2 h1 h2 c val hval
    unfold ElementWiseVectorAdditionBinaryOperator.apply
      GrB_Vector_eWiseAdd_BinaryOp at h1 h2
    simp only [ElementWiseVectorAdditionBinaryOperator.new] at h1 h2
    split at h1
    · rw [Except.ok.injEq] at h1
      subst h1
      split at h2
      · rw [Except.ok.injEq] at h2
        subst h2
        have hcomputed : eWiseAdd_computed f u v c = some val := by
          simpa [written_entry, mask_selects, OperatorOptions.new_default]
            using hval
        simp [written_entry, mask_selects, OperatorOptions.new_default,
          hcomputed, two_mul]
      · exact absurd h2 (by simp)
    · exact absurd h1 (by simp)
  · intro f a b prior w1 w2 h1 h2 i j val hval
    unfold ElementWiseMatrixMultiplicationBinaryOperator.apply
      GrB_Matrix_eWiseMult_BinaryOp at h1 h2
    simp only [ElementWiseMatrixMultiplicationBinaryOperator.new,
      OperatorOptions.new_default, Bool.false_eq_true, if_false] at h1 h2
    split at h1
    · rw [Except.ok.injEq] at h1
      subst h1
      split at h2
      · rw [Except.ok.injEq] at h2
        subst h2
        have hcomputed : eWiseMult_computed f a b i j = some val := by
          simpa [written_entry, mask_selects, OperatorOptions.new_default]
            using hval
        simp [written_entry, mask_selects, OperatorOptions.new_default,
          hcomputed, two_mul]
      · exact absurd h2 (by simp)
    · exact absurd h1 (by simp)

/-- The result of applying the Example C element-wise combination once
with the Assignment accumulator into an empty output. -/
def exampleC_first_result : SparseVector Int :=
  ((ElementWiseVectorAdditionBinaryOperator.new (fun x y => x * y)
      OperatorOptions.new_default Accumulator.assignment).apply
    exampleC_multiplier exampleC_multiplicant
    (SparseVector.new Int 4)).toOption.getD (SparseVector.new Int 4)

/-- The result of re-applying the Example C element-wise combination
with the additive Plus accumulator into the previously written
output. -/
def exampleC_second_result : SparseVector Int :=
  ((ElementWiseVectorAdditionBinaryOperator.new (fun x y => x * y)
      OperatorOptions.new_default
      (Accumulator.combine fun x y => x + y)).apply
    exampleC_multiplier exampleC_multiplicant
    exampleC_first_result).toOption.getD (SparseVector.new Int 4)

/-- Witness for C6: Example C, where the first application stores 5 at
coordinate 0 and the re-application with the Plus accumulator stores
10 there. -/
theorem element_wise_double_application_witness :
    exampleC_first_result.element_value 0 = some 5 ∧
      exampleC_second_result.element_value 0 = some (2 * 5) :=
  ⟨rfl,
    element_wise_double_application_with_plus_accumulator.1
      (fun x y => x * y) exampleC_multiplier exampleC_multiplicant
      (SparseVector.new Int 4) exampleC_first_result exampleC_second_result
      rfl rfl 0 5 rfl⟩

/-- Operator options with the replace-output flag set and every other
flag unset. -/
def replace_output_options : OperatorOptions :=
  ⟨false, false, true, false, false⟩

/-- A length-1 Bool mask collection storing the value false at every
coordinate. -/
def false_valued_mask : SparseVector Bool := ⟨1, fun _ => some false⟩

/-- A length-1 operand vector with no stored elements. -/
def empty_operand_1 : SparseVector Int := SparseVector.new Int 1

/-- A length-1 output vector holding the value 7 at coordinate 0. -/
def prior_output_7 : SparseVector Int := ⟨1, fun _ => some 7⟩

/-- Counterexample to claim C7 as stated: an applier built with the
replace-output option set succeeds in a masked apply, coordinate 0 is
not selected by the mask (stored mask value false, complement unset),
yet the prior output content at coordinate 0 is deleted rather than
left unchanged. -/
theorem mask_frame_counterexample :
    ∃ w,
      (ElementWiseVectorAdditionBinaryOperator.new (fun x y => x * y)
          replace_output_options Accumulator.assignment).apply_with_mask
        false_valued_mask empty_operand_1 empty_operand_1 prior_output_7 =
        .ok w ∧
      false_valued_mask.element_value 0 = some false ∧
      replace_output_options.complement_mask = false ∧
      mask_selects replace_output_options
        (some (false_valued_mask.element_value 0)) = false ∧
      ¬w.element_value 0 = prior_output_7.element_value 0 := by
  refine ⟨_, rfl, rfl, rfl, rfl, ?_⟩
  decide

/-- Claim C7 as amended: provided the replace-output option of the
applier is unset, a successful masked apply leaves the prior output
content unchanged at every coordinate the mask does not select (per
the selection predicate, with its optional structural interpretation
and complement).  Stated for the masked entry points of the
element-wise vector addition, matrix multiplication, element-wise
matrix multiplication and unary map appliers. -/
theorem mask_frame_amended :
    (∀ (f : Int → Int → Int) (opts : OperatorOptions) (accum : Accumulator Int)
        (mask : SparseVector Bool) (u v prior w : SparseVector Int) (c : Nat),
      opts.replace_output = false →
      mask_selects opts (some (mask.element_value c)) = false →
      (ElementWiseVectorAdditionBinaryOperator.new f opts accum).apply_with_mask
        mask u v prior = .ok w →
      w.element_value c = prior.element_value c) ∧
    (∀ (semiring : SemiringOperator Int) (opts : OperatorOptions)
        (accum : Accumulator Int) (mask : SparseMatrix Bool)
        (a b prior w : SparseMatrix Int) (i j : Nat),
      opts.replace_output = false →
      mask_selects opts (some (mask.element_value i j)) = false →
      (MatrixMultiplicationOperator.new semiring opts accum).apply_with_mask
        mask a b prior = .ok w →
      w.element_value i j = prior.element_value i j) ∧
    (∀ (f : Int → Int → Int) (opts : OperatorOptions) (accum : Accumulator Int)
        (mask : SparseMatrix Bool) (a b prior w : SparseMatrix Int) (i j : Nat),
      opts.replace_output = false →
      mask_selects opts (some (mask.element_value i j)) = false →
      (ElementWiseMatrixMultiplicationBinaryOperator.new f opts
          accum).apply_with_mask mask a b prior = .ok w →
      w.element_value i j = prior.element_value i j) ∧
    (∀ (op : Int → Int) (opts : OperatorOptions) (accum : Accumulator Int)
        (mask : SparseVector Bool) (u prior w : SparseVector Int) (c : Nat),
      opts.replace_output = false →
      mask_selects opts (some (mask.element_value c)) = false →
      (UnaryOperatorApplier.new op opts accum).apply_to_vector_with_mask
        u prior mask = .ok w →
      w.element_value c = prior.element_value c) := by
  refine ⟨?_, ?_, ?_, ?_⟩
  · intro f opts accum mask u v prior w c hrep hsel h
    unfold ElementWiseVectorAdditionBinaryOperator.apply_with_mask
      GrB_Vector_eWiseAdd_BinaryOp at h
    simp only [ElementWiseVectorAdditionBinaryOperator.new] at h
    split at h
    · rw [Except.ok.injEq] at h
      subst h
      simp [written_entry, hrep, hsel]
    · exact absurd h (by simp)
  · intro s opts accum mask a b prior w i j hrep hsel h
    unfold MatrixMultiplicationOperator.apply_with_mask GrB_mxm at h
    simp only [MatrixMultiplicationOperator.new] at h
    split at h <;> split at h <;> split at h <;>
      first
        | (rw [Except.ok.injEq] at h
           subst h
           simp [written_entry, hrep, hsel])
        | exact absurd h (by simp)
  · intro f opts accum mask a b prior w i j hrep hsel h
    unfold ElementWiseMatrixMultiplicationBinaryOperator.apply_with_mask
      GrB_Matrix_eWiseMult_BinaryOp at h
    simp only [ElementWiseMatrixMultiplicationBinaryOperator.new] at h
    split at h <;> split at h <;> split at h <;>
      first
        | (rw [Except.ok.injEq] at h
           subst h
           simp [written_entry, hrep, hsel])
        | exact absurd h (by simp)
  · intro op opts accum mask u prior w c hrep hsel h
    unfold UnaryOperatorApplier.apply_to_vector_with_mask
      GrB_Vector_apply at h
    simp only [UnaryOperatorApplier.new] at h
    split at h
    · rw [Except.ok.injEq] at h
      subst h
      simp [written_entry, hrep, hsel]
    · exact absurd h (by simp)

/-- Witness for the amended C7: with default (merge) options, the mask
stored as false at coordinate 0 leaves the prior stored value 7 there
untouched. -/
theorem mask_frame_amended_witness :
    (((ElementWiseVectorAdditionBinaryOperator.new (fun x y => x * y)
        OperatorOptions.new_default Accumulator.assignment).apply_with_mask
      false_valued_mask empty_operand_1 empty_operand_1
      prior_output_7).toOption.getD prior_output_7).element_value 0 =
      prior_output_7.element_value 0 :=
  mask_frame_amended.1 (fun x y => x * y) OperatorOptions.new_default
    Accumulator.assignment false_valued_mask empty_operand_1 empty_operand_1
    prior_output_7 _ 0 rfl rfl rfl

/-- One invocation of the matrix multiplication applier: either the
unmasked or the masked entry point, with its per-call operand and mask
collections. -/
inductive MatrixMultiplicationCall (α : Type) where
  | apply_call (multiplier multiplicant : SparseMatrix α)
  | apply_with_mask_call (mask : SparseMatrix Bool)
      (multiplier multiplicant : SparseMatrix α)

/-- One step of a call sequence against the matrix multiplication
applier.  The source methods take the applier by shared reference and
never assign its fields, so the step returns the applier unchanged
next to the updated output; on failure the output is left as it
was. -/
def matrix_multiplication_step
    (state : MatrixMultiplicationOperator α × SparseMatrix α)
    (call : MatrixMultiplicationCall α) :
    MatrixMultiplicationOperator α × SparseMatrix α :=
  match call with
  | .apply_call a b =>
    (state.1, (state.1.apply a b state.2).toOption.getD state.2)
  | .apply_with_mask_call m a b =>
    (state.1, (state.1.apply_with_mask m a b state.2).toOption.getD state.2)

/-- A whole sequence of apply and apply_with_mask calls against one
matrix multiplication applier and one output collection. -/
def matrix_multiplication_call_sequence (applier : MatrixMultiplicationOperator α)
    (product : SparseMatrix α) (calls : List (MatrixMultiplicationCall α)) :
    MatrixMultiplicationOperator α × SparseMatrix α :=
  calls.foldl matrix_multiplication_step (applier, product)

/-- One invocation of the unary map applier against a vector. -/
inductive UnaryOperatorCall (α : Type) where
  | apply_to_vector_call (argument : SparseVector α)
  | apply_to_vector_with_mask_call (argument : SparseVector α)
      (mask : SparseVector Bool)

/-- One step of a call sequence against the unary map applier. -/
def unary_operator_step (state : UnaryOperatorApplier α × SparseVector α)
    (call : UnaryOperatorCall α) : UnaryOperatorApplier α × SparseVector α :=
  match call with
  | .apply_to_vector_call u =>
    (state.1, (state.1.apply_to_vector u state.2).toOption.getD state.2)
  | .apply_to_vector_with_mask_call u m =>
    (state.1, (state.1.apply_to_vector_with_mask u state.2 m).toOption.getD state.2)

/-- A whole sequence of calls against one unary map applier and one
output vector. -/
def unary_operator_call_sequence (applier : UnaryOperatorApplier α)
    (product : SparseVector α) (calls : List (UnaryOperatorCall α)) :
    UnaryOperatorApplier α × SparseVector α :=
  calls.foldl unary_operator_step (applier, product)

/-- One invocation of the element-wise vector addition applier. -/
inductive ElementWiseVectorAdditionCall (α : Type) where
  | apply_call (multiplier multiplicant : SparseVector α)
  | apply_with_mask_call (mask : SparseVector Bool)
      (multiplier multiplicant : SparseVector α)

/-- One step of a call sequence against the element-wise vector
addition applier. -/
def element_wise_vector_addition_step
    (state : ElementWiseVectorAdditionBinaryOperator α × SparseVector α)
    (call : ElementWiseVectorAdditionCall α) :
    ElementWiseVectorAdditionBinaryOperator α × SparseVector α :=
  match call with
  | .apply_call a b =>
    (state.1, (state.1.apply a b state.2).toOption.getD state.2)
  | .apply_with_mask_call m a b =>
    (state.1, (state.1.apply_with_mask m a b state.2).toOption.getD state.2)

/-- A whole sequence of calls against one element-wise vector addition
applier and one output vector. -/
def element_wise_vector_addition_call_sequence
    (applier : ElementWiseVectorAdditionBinaryOperator α)
    (product : SparseVector α)
    (calls : List (ElementWiseVectorAdditionCall α)) :
    ElementWiseVectorAdditionBinaryOperator α × SparseVector α :=
  calls.foldl element_wise_vector_addition_step (applier, product)

/-- A single step leaves the matrix multiplication applier component
untouched. -/
lemma matrix_multiplication_step_fst
    (state : MatrixMultiplicationOperator α × SparseMatrix α)
    (call : MatrixMultiplicationCall α) :
    (matrix_multiplication_step state call).1 = state.1 := by
  cases call <;> rfl

/-- A single step leaves the unary map applier component untouched. -/
lemma unary_operator_step_fst (state : UnaryOperatorApplier α × SparseVector α)
    (call : UnaryOperatorCall α) :
    (unary_operator_step state call).1 = state.1 := by
  cases call <;> rfl

/-- A single step leaves the element-wise vector addition applier
component untouched. -/
lemma element_wise_vector_addition_step_fst
    (state : ElementWiseVectorAdditionBinaryOperator α × SparseVector α)
    (call : ElementWiseVectorAdditionCall α) :
    (element_wise_vector_addition_step state call).1 = state.1 := by
  cases call <;> rfl

/-- Folding a step function that never changes the first component
keeps it at its initial value. -/
lemma foldl_fst_invariant {σ γ : Type} (step : σ × γ → δ → σ × γ)
    (hstep : ∀ s c, (step s c).1 = s.1) :
    ∀ (calls : List δ) (s : σ × γ), (calls.foldl step s).1 = s.1 := by
  intro calls
  induction calls with
  | nil => intro s; rfl
  | cons c cs ih =>
    intro s
    rw [List.foldl_cons, ih (step s c), hstep]

/-- Claim C9: each applier is immutable after construction.  Its
constructor sets the operator, accumulator and options handles from
its arguments, and every sequence of apply and apply_with_mask calls
leaves the applier component, hence its three handle fields, equal to
the post-construction value. -/
theorem applier_immutable_after_construction :
    (∀ (s : SemiringOperator Int) (o : OperatorOptions) (a : Accumulator Int),
      (MatrixMultiplicationOperator.new s o a).semiring = s ∧
        (MatrixMultiplicationOperator.new s o a).options = o ∧
        (MatrixMultiplicationOperator.new s o a).accumulator = a) ∧
    (∀ (op : Int → Int) (o : OperatorOptions) (a : Accumulator Int),
      (UnaryOperatorApplier.new op o a).unary_operator = op ∧
        (UnaryOperatorApplier.new op o a).options = o ∧
        (UnaryOperatorApplier.new op o a).accumulator = a) ∧
    (∀ (f : Int → Int → Int) (o : OperatorOptions) (a : Accumulator Int),
      (ElementWiseVectorAdditionBinaryOperator.new f o a).multiplication_operator = f ∧
        (ElementWiseVectorAdditionBinaryOperator.new f o a).options = o ∧
        (ElementWiseVectorAdditionBinaryOperator.new f o a).accumulator = a) ∧
    (∀ (applier : MatrixMultiplicationOperator Int) (product : SparseMatrix Int)
        (calls : List (MatrixMultiplicationCall Int)),
      (matrix_multiplication_call_sequence applier product calls).1 = applier) ∧
    (∀ (applier : UnaryOperatorApplier Int) (product : SparseVector Int)
        (calls : List (UnaryOperatorCall Int)),
      (unary_operator_call_sequence applier product calls).1 = applier) ∧
    (∀ (applier : ElementWiseVectorAdditionBinaryOperator Int)
        (product : SparseVector Int)
        (calls : List (ElementWiseVectorAdditionCall Int)),
      (element_wise_vector_addition_call_sequence applier product calls).1 =
        applier) := by
  refine ⟨fun s o a => ⟨rfl, rfl, rfl⟩, fun op o a => ⟨rfl, rfl, rfl⟩,
    fun f o a => ⟨rfl, rfl, rfl⟩, ?_, ?_, ?_⟩
  · intro applier product calls
    exact foldl_fst_invariant matrix_multiplication_step
      matrix_multiplication_step_fst calls (applier, product)
  · intro applier product calls
    exact foldl_fst_invariant unary_operator_step
      unary_operator_step_fst calls (applier, product)
  · intro applier product calls
    exact foldl_fst_invariant element_wise_vector_addition_step
      element_wise_vector_addition_step_fst calls (applier, product)

/-- An explicit matrix mask collection storing the value true at every
coordinate: the select-all mask. -/
def select_all_matrix_mask (row_height column_width : Nat) : SparseMatrix Bool :=
  ⟨row_height, column_width, fun _ _ => some true⟩

/-- An explicit vector mask collection storing the value true at every
coordinate: the select-all mask. -/
def select_all_vector_mask (length : Nat) : SparseVector Bool :=
  ⟨length, fun _ => some true⟩

/-- A mask entry stored as true selects its coordinate exactly as the
null (no-restriction) mask pointer does, under every option
configuration. -/
lemma mask_selects_of_stored_true (opts : OperatorOptions) :
    mask_selects opts (some (some true)) = mask_selects opts none := by
  unfold mask_selects
  rcases opts with ⟨t1, t2, r, s, c⟩
  cases s <;> cases c <;> rfl

/-- Claim C10: the unmasked entry point of an applier is observably
equivalent to the masked entry point handed a select-all mask of the
output dimensions: both issue the same engine operation with the same
stored operator, accumulator and options handles, differing only in
the null (no-restriction) mask argument versus the explicit select-all
mask handle.  Stated for the matrix multiplication, unary map and
element-wise matrix multiplication appliers. -/
theorem unmasked_apply_equals_select_all_masked_apply :
    (∀ (applier : MatrixMultiplicationOperator Int)
        (a b prior : SparseMatrix Int),
      applier.apply a b prior =
        applier.apply_with_mask
          (select_all_matrix_mask prior.row_height prior.column_width) a b
          prior) ∧
    (∀ (applier : UnaryOperatorApplier Int) (u prior : SparseVector Int),
      applier.apply_to_vector u prior =
        applier.apply_to_vector_with_mask u prior
          (select_all_vector_mask prior.length)) ∧
    (∀ (applier : ElementWiseMatrixMultiplicationBinaryOperator Int)
        (a b prior : SparseMatrix Int),
      applier.apply a b prior =
        applier.apply_with_mask
          (select_all_matrix_mask prior.row_height prior.column_width) a b
          prior) := by
  refine ⟨?_, ?_, ?_⟩
  · intro applier a b prior
    unfold MatrixMultiplicationOperator.apply
      MatrixMultiplicationOperator.apply_with_mask GrB_mxm
    simp [matrix_mask_dims_ok, select_all_matrix_mask,
      mask_selects_of_stored_true]
  · intro applier u prior
    unfold UnaryOperatorApplier.apply_to_vector
      UnaryOperatorApplier.apply_to_vector_with_mask GrB_Vector_apply
    simp [vector_mask_dims_ok, select_all_vector_mask,
      mask_selects_of_stored_true]
  · intro applier a b prior
    unfold ElementWiseMatrixMultiplicationBinaryOperator.apply
      ElementWiseMatrixMultiplicationBinaryOperator.apply_with_mask
      GrB_Matrix_eWiseMult_BinaryOp
    simp [matrix_mask_dims_ok, select_all_matrix_mask,
      mask_selects_of_stored_true]

end GraphBLAS
